import Mathlib

/-!
# Verification of the geo_skeletons schema/shape core

Shallow embedding of the schema registry (`managers/coordinate_manager.py`),
the data write path with its mask-trigger engine and magnitude/direction
decomposition (`skeleton.py`), the dataset lookup with default filling
(`managers/dataset_manager.py`), and the shape-reconciliation stage of a
write (`Skeleton._reshape_data`).

Conventions of the embedding:
* Python dictionaries keyed by entity name become insertion-ordered
  association lists; dictionary insertion of a fresh key is `++ [entry]`.
* Numeric array data is embedded as flattened `List ℚ` of values; the
  shape of a stored field is derived from the registry (its coordinate
  group mapped through the coordinate lengths), as in the code.
* `np.inf` / `-np.inf` appearing as range bounds are embedded by the
  three-valued type `Bnd`.
* Fallible paths (Python exceptions, `None`-propagating crashes, and the
  unbounded `set` recursion through the trigger engine) are embedded with
  `Option`/`Except` and a fuel parameter.
* The eager/lazy numeric backend (`DaskManager.sin/cos/arctan2` and the
  trigonometry of `dir_type_manager`) is embedded as an abstract record of
  functions `TrigOps`, exactly mirroring that the code dispatches all
  trigonometry through a backend object.
-/

namespace GeoSkel

/-- A range bound as stored in `GridMask.valid_range`: a finite number or
one of the two numpy infinities. -/
inductive Bnd where
  | ninf : Bnd
  | val : ℚ → Bnd
  | pinf : Bnd
deriving DecidableEq, Repr

/-- `b ≤ x` for a lower bound `b` against a data value `x`
(`data >= valid_range[0]`). -/
def Bnd.leR : Bnd → ℚ → Bool
  | .ninf, _ => true
  | .val q, x => decide (q ≤ x)
  | .pinf, _ => false

/-- `b < x` for a lower bound `b` against a data value `x`
(`data > valid_range[0]`). -/
def Bnd.ltR : Bnd → ℚ → Bool
  | .ninf, _ => true
  | .val q, x => decide (q < x)
  | .pinf, _ => false

/-- `x ≤ b` for a data value `x` against an upper bound `b`
(`data <= valid_range[1]`). -/
def Bnd.rLe : ℚ → Bnd → Bool
  | _, .ninf => false
  | x, .val q => decide (x ≤ q)
  | _, .pinf => true

/-- `x < b` for a data value `x` against an upper bound `b`
(`data < valid_range[1]`). -/
def Bnd.rLt : ℚ → Bnd → Bool
  | _, .ninf => false
  | x, .val q => decide (x < q)
  | _, .pinf => true

/-- `range_inclusive` as held by a `GridMask`: the user may supply a single
boolean, which `add_mask` normalizes to a pair. -/
inductive RangeIncl where
  | scalar : Bool → RangeIncl
  | pair : Bool → Bool → RangeIncl
deriving DecidableEq, Repr

/-- Direction convention tag (`dir_type`). -/
inductive DirType where
  | math : DirType
  | toDir : DirType
  | fromDir : DirType
deriving DecidableEq, Repr

/-- A coordinate record (name and coordinate group), as registered by the
decorators into `CoordinateManager._added_coords`. -/
structure CoordinateR where
  name : String
  coord_group : String
deriving DecidableEq, Repr

/-- A data-variable record as held in `CoordinateManager._added_vars`.
The record type itself lives in the `geo_skeletons.variables` module; the
fields embedded here are the ones the managers and `skeleton.py` consult. -/
structure DataVarR where
  name : String
  coord_group : String
  default_value : ℚ
deriving DecidableEq, Repr

/-- A mask record as held in `CoordinateManager._added_masks`.  The record
type lives in `geo_skeletons.variables`; fields are those consulted by
`add_mask`, `triggers` and `Skeleton._trigger_masks`.  `opposite_name` is
modelled from the spec (the `variables` module is not part of the sources):
a mask may name a second mask that is its logical complement. -/
structure GridMaskR where
  name : String
  coord_group : String
  default_value : ℚ
  opposite_name : Option String
  triggered_by : Option String
  valid_range : Option Bnd × Option Bnd
  range_inclusive : RangeIncl
deriving DecidableEq, Repr

/-- A magnitude record (`CoordinateManager._added_magnitudes`): the names of
the two Cartesian component variables and the paired direction, plus the
coordinate group it reports through `coord_group`. -/
structure MagnitudeR where
  name : String
  x : String
  y : String
  direction : Option String
  coord_group : String
deriving DecidableEq, Repr

/-- A direction record (`CoordinateManager._added_directions`). -/
structure DirectionR where
  name : String
  x : String
  y : String
  magnitude : Option String
  dir_type : DirType
  coord_group : String
deriving DecidableEq, Repr

/-- The polymorphic result of `CoordinateManager.get`: one of the five
entity kinds. -/
inductive Entity where
  | coord : CoordinateR → Entity
  | dvar : DataVarR → Entity
  | mag : MagnitudeR → Entity
  | dir : DirectionR → Entity
  | mask : GridMaskR → Entity
deriving DecidableEq, Repr

/-- The coordinate group an entity reports (every record carries one). -/
def Entity.coordGroup : Entity → String
  | .coord c => c.coord_group
  | .dvar v => v.coord_group
  | .mag m => m.coord_group
  | .dir d => d.coord_group
  | .mask m => m.coord_group

/-- `default_value` where the record has one (`DataVar` and `GridMask`);
accessing it on the other kinds is an attribute error in the code, embedded
as `none`. -/
def Entity.defaultValue : Entity → Option ℚ
  | .dvar v => some v.default_value
  | .mask m => some m.default_value
  | _ => none

/-- The registry: `CoordinateManager` with its five insertion-ordered
dictionaries, each embedded as an association list in insertion order. -/
structure CoordinateManager where
  added_coords : List CoordinateR
  added_vars : List DataVarR
  added_magnitudes : List MagnitudeR
  added_directions : List DirectionR
  added_masks : List GridMaskR
deriving DecidableEq, Repr

namespace CoordinateManager

/-- First record with the given name in a list, by a name projection. -/
def findByName (nm : String) (get_name : α → String) (l : List α) : Option α :=
  l.find? (fun r => get_name r = nm)

/-- `CoordinateManager.get`: look the name up in the five dictionaries in
the order `coords or vars or magnitudes or directions or masks`. -/
def get (cm : CoordinateManager) (var : String) : Option Entity :=
  (findByName var CoordinateR.name cm.added_coords).map Entity.coord
    |>.orElse fun _ => (findByName var DataVarR.name cm.added_vars).map Entity.dvar
    |>.orElse fun _ => (findByName var MagnitudeR.name cm.added_magnitudes).map Entity.mag
    |>.orElse fun _ => (findByName var DirectionR.name cm.added_directions).map Entity.dir
    |>.orElse fun _ => (findByName var GridMaskR.name cm.added_masks).map Entity.mask

/-- The duplicate-registration error `VariableExistsError(name)` (named
`DuplicateFieldError` in the specification). -/
structure VariableExists where
  name : String
deriving DecidableEq, Repr

/-- `CoordinateManager.add_var`. -/
def add_var (cm : CoordinateManager) (data_var : DataVarR) :
    Except VariableExists CoordinateManager :=
  if (cm.get data_var.name).isSome then
    .error ⟨data_var.name⟩
  else
    .ok { cm with added_vars := cm.added_vars ++ [data_var] }

/-- `None` bounds of a triggered mask's `valid_range` are replaced by
`np.inf` (`np.inf if r is None else r`). -/
def normBound : Option Bnd → Option Bnd
  | none => some Bnd.pinf
  | some b => some b

/-- `CoordinateManager.add_mask`: duplicate check on the mask's name, then
normalization of `valid_range` (only when `triggered_by` is set) and of a
scalar `range_inclusive`. -/
def add_mask (cm : CoordinateManager) (grid_mask : GridMaskR) :
    Except VariableExists CoordinateManager :=
  if (cm.get grid_mask.name).isSome then
    .error ⟨grid_mask.name⟩
  else
    let gm :=
      if grid_mask.triggered_by.isSome then
        { grid_mask with
          valid_range :=
            (normBound grid_mask.valid_range.1, normBound grid_mask.valid_range.2) }
      else grid_mask
    let gm :=
      match gm.range_inclusive with
      | .scalar b => { gm with range_inclusive := .pair b b }
      | .pair _ _ => gm
    .ok { cm with added_masks := cm.added_masks ++ [gm] }

/-- `CoordinateManager.triggers`: the masks whose `triggered_by` equals the
given variable name. -/
def triggers (cm : CoordinateManager) (name : String) : List GridMaskR :=
  cm.added_masks.filter (fun mask => mask.triggered_by = some name)

/-- `CoordinateManager.add_coord`. -/
def add_coord (cm : CoordinateManager) (coord : CoordinateR) :
    Except VariableExists CoordinateManager :=
  if (cm.get coord.name).isSome then
    .error ⟨coord.name⟩
  else
    .ok { cm with added_coords := cm.added_coords ++ [coord] }

/-- `CoordinateManager.add_magnitude`. -/
def add_magnitude (cm : CoordinateManager) (magnitude : MagnitudeR) :
    Except VariableExists CoordinateManager :=
  if (cm.get magnitude.name).isSome then
    .error ⟨magnitude.name⟩
  else
    .ok { cm with added_magnitudes := cm.added_magnitudes ++ [magnitude] }

/-- `CoordinateManager.add_direction`. -/
def add_direction (cm : CoordinateManager) (direction : DirectionR) :
    Except VariableExists CoordinateManager :=
  if (cm.get direction.name).isSome then
    .error ⟨direction.name⟩
  else
    .ok { cm with added_directions := cm.added_directions ++ [direction] }

end CoordinateManager

/-- `list.pop(list.index(a)); list.insert(0, ...)` when `a` is present:
move the first occurrence of `a` to the front. -/
def moveFront (a : String) (l : List String) : List String :=
  if a ∈ l then a :: l.erase a else l

/-- `move_time_and_spatial_to_front`: successively move `inds`, `x`, `y`,
`lon`, `lat`, `time` to the front (so that `time` ends first). -/
def move_time_and_spatial_to_front (coord_list : List String) : List String :=
  moveFront "time" (moveFront "lat" (moveFront "lon"
    (moveFront "y" (moveFront "x" (moveFront "inds" coord_list)))))

/-- Apply `moveFront` for each key, the last key of the list first. -/
def applyMoves (ks : List String) (l : List String) : List String :=
  ks.foldr moveFront l

/-- The front priorities in the order the code ends up placing them. -/
def codeFrontOrder : List String := ["time", "lat", "lon", "y", "x", "inds"]

/-- The fixed front-ordering as the specification states it: `time` first,
then `lat` or `y`, then `lon` or `x`, then `inds`. -/
def specFrontOrder : List String := ["time", "lat", "y", "lon", "x", "inds"]

namespace CoordinateManager

/-- The valid coordinate-group names accepted by the list methods. -/
def validGroups : List String := ["all", "spatial", "nonspatial", "grid", "gridpoint"]

/-- The branch of `CoordinateManager.coords` selecting the group's
coordinate records in insertion order. -/
def groupCoords (cm : CoordinateManager) (coord_group : String) : List CoordinateR :=
  if coord_group = "all" then
    cm.added_coords
  else if coord_group = "nonspatial" then
    cm.added_coords.filter (fun c => c.coord_group ≠ "spatial")
  else if coord_group = "grid" then
    cm.added_coords.filter (fun c => c.coord_group = "grid" ∨ c.coord_group = "spatial")
  else
    cm.added_coords.filter (fun c => c.coord_group = coord_group)

/-- `CoordinateManager.coords`: `None` (after printing a message) for an
unknown group name, otherwise the insertion-ordered names of the group's
coordinates with time and the spatial coordinates moved to the front. -/
def coords (cm : CoordinateManager) (coord_group : String) : Option (List String) :=
  if coord_group ∉ validGroups then
    none
  else
    some (move_time_and_spatial_to_front ((groupCoords cm coord_group).map CoordinateR.name))

/-- Names of registered masks (`CoordinateManager.masks("all")`). -/
def maskNames (cm : CoordinateManager) : List String :=
  cm.added_masks.map GridMaskR.name

/-- Names of registered magnitudes (`CoordinateManager.magnitudes("all")`). -/
def magNames (cm : CoordinateManager) : List String :=
  cm.added_magnitudes.map MagnitudeR.name

/-- Names of registered directions (`CoordinateManager.directions("all")`). -/
def dirNames (cm : CoordinateManager) : List String :=
  cm.added_directions.map DirectionR.name

/-- `CoordinateManager.coord_group`: collect the matching records of the
five dictionaries in the order coords, vars, masks, magnitudes, directions
and return the first one's group; `KeyError` if none matches. -/
def coord_group (cm : CoordinateManager) (var : String) : Except String String :=
  let all_vars : List String :=
    (cm.added_coords.filter (fun v => v.name = var)).map CoordinateR.coord_group
      ++ (cm.added_vars.filter (fun v => v.name = var)).map DataVarR.coord_group
      ++ (cm.added_masks.filter (fun v => v.name = var)).map GridMaskR.coord_group
      ++ (cm.added_magnitudes.filter (fun v => v.name = var)).map MagnitudeR.coord_group
      ++ (cm.added_directions.filter (fun v => v.name = var)).map DirectionR.coord_group
  match all_vars with
  | [] => .error ("Cannot find the data " ++ var)
  | g :: _ => .ok g

end CoordinateManager

open CoordinateManager (findByName)

/-! ## The backing store and the write path of `skeleton.py`

The xarray Dataset behind `DatasetManager` is embedded as a keyed store of
flattened value lists; a field's shape is derived from the registry, as in
the code (`coords_to_size` over the field's coordinate group). -/

/-- Lookup in a keyed association list. -/
def keyLookup {β : Type} (st : List (String × β)) (name : String) : Option β :=
  match st with
  | [] => none
  | (k, v) :: rest => if k = name then some v else keyLookup rest name

/-- Remove all entries under a key. -/
def keyErase {β : Type} (st : List (String × β)) (name : String) :
    List (String × β) :=
  match st with
  | [] => []
  | (k, v) :: rest =>
    if k = name then keyErase rest name else (k, v) :: keyErase rest name

/-- The backing store: field name to flattened array values. -/
abbrev Store := List (String × List ℚ)

/-- `store.get(name)`. -/
def storeLookup (st : Store) (name : String) : Option (List ℚ) :=
  keyLookup st name

/-- Keyed overwrite (`self.data[name] = ...`). -/
def storeInsert (st : Store) (name : String) (data : List ℚ) : Store :=
  (name, data) :: keyErase st name

/-- Coordinate lengths of the instance, read off the Dataset. -/
abbrev Sizes := List (String × Nat)

/-- Length of one coordinate (`len(data.get(coord))`). -/
def lenOf (sizes : Sizes) (c : String) : Option Nat :=
  keyLookup sizes c

/-- `DatasetManager.coords_to_size` composed with the group resolution:
the resolved shape of a coordinate group. -/
def shapeOfGroup (cm : CoordinateManager) (sizes : Sizes) (g : String) :
    Option (List Nat) :=
  (cm.coords g).bind (fun cs => cs.mapM (lenOf sizes))

/-- `Skeleton.shape(name)` for a non-coordinate field: the size of the
field's coordinate group. -/
def shapeOfName (cm : CoordinateManager) (sizes : Sizes) (name : String) :
    Option (List Nat) :=
  match cm.coord_group name with
  | .error _ => none
  | .ok g => shapeOfGroup cm sizes g

/-- The default-filled array built by `DatasetManager.get` when `empty`
holds: `full(coords_to_size(coords), obj.default_value)`, flattened. -/
def emptyData (cm : CoordinateManager) (sizes : Sizes) (name : String) :
    Option (List ℚ) := do
  let obj ← cm.get name
  let dv ← obj.defaultValue
  let cs ← cm.coords obj.coordGroup
  let shape ← cs.mapM (lenOf sizes)
  pure (List.replicate shape.prod dv)

/-- `DatasetManager.get(name, empty, strict)`: stored data, or the
default-filled array when the data is missing (non-strict) or `empty` is
requested. -/
def dsGet (cm : CoordinateManager) (sizes : Sizes) (st : Store) (name : String)
    (empty strict : Bool) : Option (List ℚ) :=
  match storeLookup st name with
  | none => if strict then none else emptyData cm sizes name
  | some d => if empty then emptyData cm sizes name else some d

/-- `bool` to the 0/1 value a mask write stores. -/
def b2q (b : Bool) : ℚ := if b then 1 else 0

/-- `astype(int)` on one value: numpy truncation toward zero. -/
def truncQ (q : ℚ) : ℚ := ((q.num.tdiv q.den : ℤ) : ℚ)

/-- One trigger spec evaluated against the written data
(`Skeleton._trigger_masks` loop body): elementwise conjunction of the two
range predicates.  A bound still `None` or a scalar `range_inclusive`
(impossible for a mask that went through `add_mask` with `triggered_by`)
crashes the Python code and is embedded as `none`. -/
def computeMask (mask : GridMaskR) (data : List ℚ) : Option (List Bool) := do
  let lo ← mask.valid_range.1
  let hi ← mask.valid_range.2
  let li ← match mask.range_inclusive with
    | .pair a b => some (a, b)
    | .scalar _ => none
  pure (data.map (fun x =>
    (if li.1 then lo.leR x else lo.ltR x) &&
    (if li.2 then Bnd.rLe x hi else Bnd.rLt x hi)))

/-- The numeric backend the write path dispatches trigonometry through
(`DaskManager.sin/cos/arctan2` and `compute_magnitude`), eager or lazy. -/
structure TrigOps where
  sin : ℚ → ℚ
  cos : ℚ → ℚ
  atan2 : ℚ → ℚ → ℚ
  sqrt : ℚ → ℚ

/-- Modelled from the spec: `dir_type_manager.convert_to_math_dir` (the
`dir_type_manager` module is not among the sources).  Degrees, with `math`
the identity; `to`/`from` are the self-inverse compass conversions. -/
def convert_to_math_dir (dt : DirType) (q : ℚ) : ℚ :=
  match dt with
  | .math => q
  | .toDir => (90 - q) - 360 * ⌊(90 - q) / 360⌋
  | .fromDir => (90 - q + 180) - 360 * ⌊(90 - q + 180) / 360⌋

/-- Modelled from the spec: `dir_type_manager.convert_from_math_dir`. -/
def convert_from_math_dir (dt : DirType) (q : ℚ) : ℚ :=
  match dt with
  | .math => q
  | .toDir => (90 - q) - 360 * ⌊(90 - q) / 360⌋
  | .fromDir => (90 - q + 180) - 360 * ⌊(90 - q + 180) / 360⌋

/-- `Skeleton._get_direction` with `dir_type="math"` as called from
`_set_magnitude`: read both components non-strictly (missing components
come back default-filled), take `atan2(y, x)` elementwise, convert from
math convention to math convention (identity). -/
def getDirMath (ops : TrigOps) (cm : CoordinateManager) (sizes : Sizes)
    (st : Store) (d : DirectionR) : Option (List ℚ) := do
  let xs ← dsGet cm sizes st d.x false false
  let ys ← dsGet cm sizes st d.y false false
  pure ((List.zipWith (fun y x => ops.atan2 y x) ys xs).map
    (convert_from_math_dir DirType.math))

/-- `Skeleton._get_magnitude` as called from `_set_direction`:
`sqrt(x**2 + y**2)` elementwise over the two components. -/
def getMagVals (ops : TrigOps) (cm : CoordinateManager) (sizes : Sizes)
    (st : Store) (m : MagnitudeR) : Option (List ℚ) := do
  let xs ← dsGet cm sizes st m.x false false
  let ys ← dsGet cm sizes st m.y false false
  pure (List.zipWith (fun x y => ops.sqrt (x * x + y * y)) xs ys)

/-- The `for mask in self.core.triggers(name)` loop of
`Skeleton._trigger_masks`: each triggered mask is written through the full
`set` entry point (`self.set(mask.name, mask_array)`), passed in as
`doSet`. -/
def trigFold (doSet : Store → String → List ℚ → Option Store) :
    Store → List GridMaskR → List ℚ → Option Store
  | st, [], _ => some st
  | st, mask :: rest, data => do
      let mb ← computeMask mask data
      let st2 ← doSet st mask.name (mb.map b2q)
      trigFold doSet st2 rest data

/-- `Skeleton._set_data`: resolve the coordinate group (`KeyError` when the
name is unknown), write the array to the store, then fire the triggers
registered against the written name. -/
def set_dataF (doSet : Store → String → List ℚ → Option Store)
    (cm : CoordinateManager) (st : Store) (name : String) (data : List ℚ) :
    Option Store := do
  let _g ← (cm.coord_group name).toOption
  trigFold doSet (storeInsert st name data) (cm.triggers name) data

/-- `Skeleton.set(name, data)` with array data and the default keyword
arguments (`dir_type=None`, `allow_reshape=True`, `allow_transpose=False`).
The shape-reconciliation stage is embedded at shape level by `reshapeData`
below; on the non-transposing write path a successful reconciliation is
the identity on the flattened values, so here it reduces to the size guard
against the field's resolved shape.  Masks are converted with
`astype(int)`; magnitude and direction names are decomposed into their two
Cartesian components (`_set_magnitude` / `_set_direction`) and everything
else is written directly (`_set_data`).  The recursion
`set → _set_data → _trigger_masks → set` is fuelled; exhausted fuel is
`none`. -/
def setF (ops : TrigOps) (cm : CoordinateManager) (sizes : Sizes) :
    Nat → Store → String → List ℚ → Option Store
  | 0, _, _, _ => none
  | fuel + 1, st, name, data => do
      let shape ← shapeOfName cm sizes name
      if data.length ≠ shape.prod then none else
      let d := if name ∈ cm.maskNames then data.map truncQ else data
      match findByName name MagnitudeR.name cm.added_magnitudes with
      | some mag => do
          let dirName ← mag.direction
          let dirObj ← findByName dirName DirectionR.name cm.added_directions
          let dirData ← getDirMath ops cm sizes st dirObj
          let ux := List.zipWith (fun m c => m * c) d (dirData.map ops.cos)
          let uy := List.zipWith (fun m s => m * s) d (dirData.map ops.sin)
          let st2 ← set_dataF (setF ops cm sizes fuel) cm st mag.x ux
          set_dataF (setF ops cm sizes fuel) cm st2 mag.y uy
      | none =>
        match findByName name DirectionR.name cm.added_directions with
        | some dir => do
            let magName ← dir.magnitude
            let magObj ← findByName magName MagnitudeR.name cm.added_magnitudes
            let magData ← getMagVals ops cm sizes st magObj
            let dmath := d.map (convert_to_math_dir dir.dir_type)
            let ux := List.zipWith (fun m c => m * c) magData (dmath.map ops.cos)
            let uy := List.zipWith (fun m s => m * s) magData (dmath.map ops.sin)
            let st2 ← set_dataF (setF ops cm sizes fuel) cm st dir.x ux
            set_dataF (setF ops cm sizes fuel) cm st2 dir.y uy
        | none => set_dataF (setF ops cm sizes fuel) cm st name d

/-- `Skeleton.get(name, empty=True, squeeze=False)` as used by `set` when
`data` is omitted: magnitudes and directions are recomposed from
default-filled components, masks are reinterpreted as booleans, everything
else is the default-filled array from the dataset manager. -/
def getEmptyVals (ops : TrigOps) (cm : CoordinateManager) (sizes : Sizes)
    (st : Store) (name : String) : Option (List ℚ) := do
  let v ←
    match findByName name MagnitudeR.name cm.added_magnitudes with
    | some mag => do
        let xs ← dsGet cm sizes st mag.x true false
        let ys ← dsGet cm sizes st mag.y true false
        pure (List.zipWith (fun x y => ops.sqrt (x * x + y * y)) xs ys)
    | none =>
      match findByName name DirectionR.name cm.added_directions with
      | some dir => do
          let xs ← dsGet cm sizes st dir.x true false
          let ys ← dsGet cm sizes st dir.y true false
          pure ((List.zipWith (fun y x => ops.atan2 y x) ys xs).map
            (convert_from_math_dir dir.dir_type))
      | none => dsGet cm sizes st name true false
  pure (if name ∈ cm.maskNames then v.map (fun q => b2q (decide (q ≠ 0))) else v)

/-- `Skeleton.set(name)` with `data=None`: fetch the empty (default-filled)
array and write it through the normal path. -/
def setNoneF (ops : TrigOps) (cm : CoordinateManager) (sizes : Sizes)
    (fuel : Nat) (st : Store) (name : String) : Option Store := do
  let d ← getEmptyVals ops cm sizes st name
  setF ops cm sizes fuel st name d

/-! ## Shape level: `Skeleton._reshape_data`

The reconciliation stage of a `set` call acts on shapes; the
`ReshapeManager` module is not among the sources, so its two operations
are modelled from the spec. -/

/-- Squeeze out trivial (`size == 1`) dimensions of a shape. -/
def squeezeShape (s : List Nat) : List Nat := s.filter (fun n => n ≠ 1)

/-- Modelled from the spec: `ReshapeManager.unsqueeze` (module absent from
the sources) reinstates trivial dimensions to reach the exact expected
shape; it succeeds precisely when the non-trivial dimensions already agree
in order, and propagates a failed previous stage (`None`). -/
def unsqueezeShape (s expected : List Nat) : Option (List Nat) :=
  if squeezeShape s = squeezeShape expected then some expected else none

/-- Modelled from the spec: `ReshapeManager.transpose_2d` (module absent
from the sources) attempts one transpose, only when the squeezed data is
two-dimensional and its transpose is the expected squeezed shape. -/
def transpose2dShape (s : List Nat) (expectedSqueezed : List Nat) :
    Option (List Nat) :=
  match squeezeShape s with
  | [a, b] => if [b, a] = expectedSqueezed then some [b, a] else none
  | _ => none

/-- `Skeleton._reshape_data` at shape level: accept an exact match;
otherwise run the transpose attempt (when allowed, replacing the data, with
`None` on failure) and then the unsqueeze attempt (when allowed); raise
`DataWrongDimensionError(original_shape, expected_shape)` when the result
is `None`. -/
def reshapeData (shape expected : List Nat) (allow_reshape allow_transpose : Bool) :
    Except (List Nat × List Nat) (List Nat) :=
  if shape = expected then .ok shape
  else
    let d1 : Option (List Nat) :=
      if allow_transpose then transpose2dShape shape (squeezeShape expected)
      else some shape
    let d2 : Option (List Nat) :=
      if allow_reshape then d1.bind (fun s => unsqueezeShape s expected) else d1
    match d2 with
    | none => .error (shape, expected)
    | some s => .ok s

/-- The shape image of the backing store. -/
abbrev ShapeStore := List (String × List Nat)

/-- Shape image of a `set` call: `_reshape_data` runs before `_set_data`,
so a reconciliation failure raises with the store untouched; on success
the field's shape is recorded. -/
def setShapes (st : ShapeStore) (name : String) (shape expected : List Nat)
    (allow_reshape allow_transpose : Bool) :
    Except (List Nat × List Nat) ShapeStore :=
  match reshapeData shape expected allow_reshape allow_transpose with
  | .error e => .error e
  | .ok s => .ok ((name, s) :: keyErase st name)

/-! ## Aliasing: class registry, instances and `deepcopy`

`Skeleton._init_structure` replaces the class-level `CoordinateManager`
reference with a `deepcopy` before an instance first diverges.  To speak
about shared mutable substructure at all, registries are placed on an
explicit heap of cells; `deepcopy` allocates a fresh cell holding a full
copy of the value, and mutation is an in-place update of one cell. -/

/-- A heap of registry cells; references are list indices. -/
abbrev Heap := List CoordinateManager

/-- Dereference. -/
def heapGet (h : Heap) (r : Nat) : Option CoordinateManager := h[r]?

/-- `deepcopy(self.core)`: allocate a fresh cell carrying a complete copy
of the referenced registry (no substructure of the new cell is reachable
from the old one), and return the new reference. -/
def deepcopyAt (h : Heap) (r : Nat) : Heap × Nat :=
  match h[r]? with
  | some reg => (h ++ [reg], h.length)
  | none => (h, h.length)

/-- Mutate the registry in cell `r` by registering one more coordinate
through `add_coord` (no change when the cell is absent or the name is a
duplicate). -/
def addCoordAt (h : Heap) (r : Nat) (c : CoordinateR) : Heap :=
  match h[r]? with
  | some reg =>
    match reg.add_coord c with
    | .ok reg2 => h.set r reg2
    | .error _ => h
  | none => h

/-! ## Concrete instances used by the theorems below -/

/-- A trivial eager backend instance (any `TrigOps` works in the
theorems; this one makes the witnesses computable). -/
def opsZ : TrigOps := ⟨fun _ => 0, fun _ => 0, fun _ _ => 0, fun _ => 0⟩

/-- Registry of the mask-trigger example: variable `topo` over the grid
group, mask `sea` triggered by `topo` with `valid_range=(0, inf)` and
`range_inclusive=(True, False)`, one spatial coordinate `inds`. -/
def exCM1 : CoordinateManager :=
  ⟨[⟨"inds", "spatial"⟩],
   [⟨"topo", "grid", 0⟩],
   [], [],
   [⟨"sea", "grid", 0, none, some "topo",
     (some (Bnd.val 0), some Bnd.pinf), .pair true false⟩]⟩

/-- Three grid points. -/
def exSizes1 : Sizes := [("inds", 3)]

/-- Registry with a cascading trigger: mask `m1` is triggered by the
variable `v`, and mask `m2` is registered as triggered by the mask `m1`. -/
def exCM5 : CoordinateManager :=
  ⟨[⟨"inds", "spatial"⟩],
   [⟨"v", "grid", 0⟩],
   [], [],
   [⟨"m1", "grid", 0, none, some "v",
     (some (Bnd.val 0), some Bnd.pinf), .pair true false⟩,
    ⟨"m2", "grid", 0, none, some "m1",
     (some (Bnd.val 1), some Bnd.pinf), .pair true true⟩]⟩

/-- One grid point. -/
def exSizes5 : Sizes := [("inds", 1)]

/-- Registry of the canonical-ordering example: coordinates `z`, `time`,
`lat`, `lon` registered in that order, `z` as a grid coordinate. -/
def exCM3 : CoordinateManager :=
  ⟨[⟨"z", "grid"⟩, ⟨"time", "grid"⟩, ⟨"lat", "spatial"⟩, ⟨"lon", "spatial"⟩],
   [], [], [], []⟩

/-- A registry already holding a variable named `land`. -/
def exCM2 : CoordinateManager :=
  ⟨[⟨"inds", "spatial"⟩], [⟨"land", "grid", 0⟩], [], [], []⟩

/-- A mask named `sea` whose `opposite_name` collides with the registered
variable `land`. -/
def exSeaOpp : GridMaskR :=
  ⟨"sea", "grid", 0, some "land", some "topo",
   (some (Bnd.val 0), some Bnd.pinf), .pair true false⟩

/-- A triggered mask registered with an unbounded (None) lower bound:
`valid_range=(None, 0)`. -/
def exWet : GridMaskR :=
  ⟨"wet", "grid", 0, none, some "topo",
   (none, some (Bnd.val 0)), .pair true true⟩

/-- Registry of the default-fill example: variable `hs` with default value
`3/2` over the grid group. -/
def exCM10 : CoordinateManager :=
  ⟨[⟨"inds", "spatial"⟩],
   [⟨"hs", "grid", 3/2⟩],
   [], [], []⟩

/-- Four grid points. -/
def exSizes10 : Sizes := [("inds", 4)]

/-- Registry of the magnitude example: components `ux`, `uy`, magnitude
`wind` paired with direction `wdir`. -/
def exCM4 : CoordinateManager :=
  ⟨[⟨"inds", "spatial"⟩],
   [⟨"ux", "grid", 0⟩, ⟨"uy", "grid", 0⟩],
   [⟨"wind", "ux", "uy", some "wdir", "grid"⟩],
   [⟨"wdir", "ux", "uy", some "wind", DirType.fromDir, "grid"⟩],
   []⟩

/-- Two grid points. -/
def exSizes4 : Sizes := [("inds", 2)]

/-! ## Helper lemmas about the keyed store -/

theorem keyLookup_erase {β : Type} (st : List (String × β)) (n k : String)
    (hk : k ≠ n) : keyLookup (keyErase st n) k = keyLookup st k := by
  induction st with
  | nil => rfl
  | cons a st ih =>
    obtain ⟨a1, a2⟩ := a
    by_cases ha : a1 = n
    · have hak : ¬(a1 = k) := fun hc => hk (hc ▸ ha)
      rw [keyErase, if_pos ha, ih, keyLookup, if_neg hak]
    · by_cases hak : a1 = k
      · rw [keyErase, if_neg ha, keyLookup, if_pos hak, keyLookup, if_pos hak]
      · rw [keyErase, if_neg ha, keyLookup, if_neg hak, keyLookup, if_neg hak, ih]

theorem storeLookup_insert (st : Store) (n k : String) (d : List ℚ) :
    storeLookup (storeInsert st n d) k
      = if k = n then some d else storeLookup st k := by
  by_cases hk : k = n
  · subst hk
    rw [storeInsert, storeLookup, keyLookup, if_pos rfl, if_pos rfl]
  · rw [storeInsert, storeLookup, keyLookup, if_neg (fun h => hk h.symm),
      if_neg hk]
    exact keyLookup_erase st n k hk

/-! ## C3: canonical ordering of resolved coordinate groups -/

theorem applyMoves_eq (ks l : List String) (hks : ks.Nodup) (hl : l.Nodup) :
    applyMoves ks l
      = ks.filter (fun a => a ∈ l) ++ l.filter (fun a => a ∉ ks) := by
  induction ks with
  | nil => simp [applyMoves]
  | cons k ks ih =>
    obtain ⟨hknotin, hks2⟩ := List.nodup_cons.mp hks
    have ihl := ih hks2
    have step : applyMoves (k :: ks) l = moveFront k (applyMoves ks l) := rfl
    rw [step, ihl]
    by_cases hkl : k ∈ l
    · have hkF : k ∉ ks.filter (fun a => a ∈ l) :=
        fun hkF => hknotin (List.mem_of_mem_filter hkF)
      have hkR : k ∈ l.filter (fun a => a ∉ ks) :=
        List.mem_filter.mpr ⟨hkl, by simpa using hknotin⟩
      have hkFR : k ∈ ks.filter (fun a => a ∈ l) ++ l.filter (fun a => a ∉ ks) :=
        List.mem_append.mpr (Or.inr hkR)
      rw [moveFront, if_pos hkFR]
      rw [List.erase_append_right _ hkF]
      have hRnodup : (l.filter (fun a => a ∉ ks)).Nodup := hl.filter _
      rw [hRnodup.erase_eq_filter k, List.filter_filter]
      have hcongr : ∀ a ∈ l,
          (decide (a ∉ k :: ks)) = ((a != k) && decide (a ∉ ks)) := by
        intro a _
        by_cases h1 : a = k <;> by_cases h2 : a ∈ ks <;> simp [h1, h2]
      rw [List.filter_cons]
      simp [hkl, List.cons_append, List.filter_congr hcongr]
      refine List.filter_congr ?_
      intro a _
      by_cases hak : a = k <;> simp [hak]
    · have hkF : k ∉ ks.filter (fun a => a ∈ l) :=
        fun hkF => hknotin (List.mem_of_mem_filter hkF)
      have hkR : k ∉ l.filter (fun a => a ∉ ks) :=
        fun hkR => hkl (List.mem_of_mem_filter hkR)
      have hkFR : k ∉ ks.filter (fun a => a ∈ l) ++ l.filter (fun a => a ∉ ks) := by
        intro hmem
        rcases List.mem_append.mp hmem with h | h
        · exact hkF h
        · exact hkR h
      rw [moveFront, if_neg hkFR]
      have hcongr : ∀ a ∈ l, (decide (a ∉ k :: ks)) = (decide (a ∉ ks)) := by
        intro a ha
        have hak : a ≠ k := fun h => hkl (h ▸ ha)
        simp [hak]
      rw [List.filter_cons]
      simp [hkl, List.filter_congr hcongr]
      refine List.filter_congr ?_
      intro a ha
      have hak : a ≠ k := fun h => hkl (h ▸ ha)
      simp [hak]

theorem msf_eq_applyMoves (l : List String) :
    move_time_and_spatial_to_front l = applyMoves codeFrontOrder l := rfl

theorem msf_canonical (l : List String) (hl : l.Nodup)
    (hpair : ¬("lon" ∈ l ∧ "y" ∈ l)) :
    move_time_and_spatial_to_front l
      = specFrontOrder.filter (fun a => a ∈ l)
          ++ l.filter (fun a => a ∉ specFrontOrder) := by
  rw [msf_eq_applyMoves, applyMoves_eq codeFrontOrder l (by decide) hl]
  have hmem : ∀ a ∈ l, (decide (a ∉ codeFrontOrder)) = (decide (a ∉ specFrontOrder)) := by
    intro a _
    have : a ∈ codeFrontOrder ↔ a ∈ specFrontOrder := by
      simp [codeFrontOrder, specFrontOrder]
      tauto
    simp [this]
  rw [List.filter_congr hmem]
  by_cases h1 : "lon" ∈ l
  · have h2 : "y" ∉ l := fun hy => hpair ⟨h1, hy⟩
    simp [codeFrontOrder, specFrontOrder, List.filter, h1, h2]
  · simp [codeFrontOrder, specFrontOrder, List.filter, h1]

/-- C3: a resolved coordinate group lists the group's coordinates with the
fixed front-ordering `time`, then `lat`/`y`, then `lon`/`x`, then `inds`,
followed by the remaining coordinates in registration order (for the
registries that can arise, the name list is duplicate-free and carries at
most one native spatial pair, so not both `lon` and `y`); in particular,
with coordinates `z`, `time`, `lat`, `lon` registered in that order and
`z` a grid coordinate, resolving the group `grid` yields
`[time, lat, lon, z]`. -/
theorem C3_resolve_group_canonical_order :
    (∀ (cm : CoordinateManager) (g : String),
      g ∈ CoordinateManager.validGroups →
      ((cm.groupCoords g).map CoordinateR.name).Nodup →
      ¬("lon" ∈ (cm.groupCoords g).map CoordinateR.name ∧
        "y" ∈ (cm.groupCoords g).map CoordinateR.name) →
      cm.coords g = some
        (specFrontOrder.filter (fun a => a ∈ (cm.groupCoords g).map CoordinateR.name)
          ++ ((cm.groupCoords g).map CoordinateR.name).filter
              (fun a => a ∉ specFrontOrder))) ∧
    exCM3.coords "grid" = some ["time", "lat", "lon", "z"] := by
  constructor
  · intro cm g hg hnodup hpair
    rw [CoordinateManager.coords, if_neg (by simpa using hg)]
    rw [msf_canonical _ hnodup hpair]
  · rfl

/-- C3 witness: the general conclusion applied to the concrete registry of
the example reproduces `[time, lat, lon, z]`. -/
theorem C3_resolve_group_canonical_order_witness :
    exCM3.coords "grid"
      = some (specFrontOrder.filter
            (fun a => a ∈ (exCM3.groupCoords "grid").map CoordinateR.name)
          ++ ((exCM3.groupCoords "grid").map CoordinateR.name).filter
              (fun a => a ∉ specFrontOrder)) :=
  C3_resolve_group_canonical_order.1 exCM3 "grid" (by decide) (by decide) (by decide)

/-! ## C2: duplicate registration -/

/-- C2 (amended): registering a name that is already registered under any
of the five entity kinds makes every `add_*` operation fail with
`VariableExistsError` (the specification's `DuplicateFieldError`) before
anything is inserted, so the registry value is left unchanged; the
duplicate check of `add_mask`, however, covers only the mask's own name,
not its `opposite_name`. -/
theorem C2_duplicate_registration_rejected :
    (∀ (cm : CoordinateManager) (v : DataVarR), (cm.get v.name).isSome →
      cm.add_var v = .error ⟨v.name⟩) ∧
    (∀ (cm : CoordinateManager) (m : GridMaskR), (cm.get m.name).isSome →
      cm.add_mask m = .error ⟨m.name⟩) ∧
    (∀ (cm : CoordinateManager) (c : CoordinateR), (cm.get c.name).isSome →
      cm.add_coord c = .error ⟨c.name⟩) ∧
    (∀ (cm : CoordinateManager) (m : MagnitudeR), (cm.get m.name).isSome →
      cm.add_magnitude m = .error ⟨m.name⟩) ∧
    (∀ (cm : CoordinateManager) (d : DirectionR), (cm.get d.name).isSome →
      cm.add_direction d = .error ⟨d.name⟩) := by
  refine ⟨?_, ?_, ?_, ?_, ?_⟩ <;>
    · intro cm x h
      simp [CoordinateManager.add_var, CoordinateManager.add_mask,
        CoordinateManager.add_coord, CoordinateManager.add_magnitude,
        CoordinateManager.add_direction, h]

/-- C2 witness: in a registry already holding a variable `land`, a second
registration of the name `land` (as a coordinate) is rejected. -/
theorem C2_duplicate_registration_rejected_witness :
    (exCM2.get "land").isSome ∧
      exCM2.add_coord ⟨"land", "grid"⟩ = .error ⟨"land"⟩ :=
  ⟨by decide, C2_duplicate_registration_rejected.2.2.1 exCM2 ⟨"land", "grid"⟩ (by decide)⟩

/-- C2 counterexample: `add_mask` accepts a mask whose `opposite_name`
(`land`) is already registered as a variable — no `VariableExistsError` is
raised, refuting the part of the claim that says the duplicate check
covers the `opposite_name`. -/
theorem C2_counterexample_opposite_not_checked :
    (exCM2.get "land").isSome ∧
    exCM2.add_mask exSeaOpp =
      .ok ⟨[⟨"inds", "spatial"⟩], [⟨"land", "grid", 0⟩], [], [],
           [⟨"sea", "grid", 0, some "land", some "topo",
             (some (Bnd.val 0), some Bnd.pinf), .pair true false⟩]⟩ :=
  ⟨by decide, rfl⟩

/-! ## C6: normalization of `None` range bounds -/

/-- C6: the code's behavior at the failing input.  `add_mask` normalizes a
`None` bound of a triggered mask's `valid_range` with
`np.inf if r is None else r`, so a `None` LOWER bound is stored as
`+infinity` (not `-infinity` as the claim states), and the resulting mask
then excludes every finite value: the data `[-1]`, inside the intended
unbounded-below range `(None, 0]`, evaluates to `[False]`. -/
theorem C6_none_lower_bound_stored_as_plus_inf :
    (CoordinateManager.add_mask ⟨[], [], [], [], []⟩ exWet).map
        (fun cm => cm.added_masks.map GridMaskR.valid_range)
      = .ok [(some Bnd.pinf, some (Bnd.val 0))] ∧
    computeMask ⟨"wet", "grid", 0, none, some "topo",
        (some Bnd.pinf, some (Bnd.val 0)), .pair true true⟩ [-1]
      = some [false] :=
  ⟨rfl, by decide⟩

/-! ## C8: resolving unknown groups and fields -/

/-- C8 counterexample: `CoordinateManager.coords` applied to a group name
that is not one of the five valid groups returns the sentinel `None`
(after printing a message) instead of raising `UnknownCoordinateError`. -/
theorem C8_counterexample_unknown_group_returns_none :
    exCM1.coords "bogus" = none := by
  decide

/-- C8 (amended): resolving an unknown coordinate-group name through
`coords` silently returns the sentinel `None`; resolving the coordinate
group of an unregistered field name through `coord_group` does fail, with
a `KeyError`. -/
theorem C8_unknown_resolution :
    (∀ (cm : CoordinateManager) (g : String),
      g ∉ CoordinateManager.validGroups → cm.coords g = none) ∧
    (∀ (cm : CoordinateManager) (v : String), cm.get v = none →
      cm.coord_group v = .error ("Cannot find the data " ++ v)) := by
  constructor
  · intro cm g hg
    simp [CoordinateManager.coords, hg]
  · intro cm v h
    have hc : CoordinateManager.findByName v CoordinateR.name cm.added_coords = none := by
      by_contra hc
      rcases Option.ne_none_iff_exists.mp hc with ⟨x, hx⟩
      simp [CoordinateManager.get, ← hx] at h
    have hv : CoordinateManager.findByName v DataVarR.name cm.added_vars = none := by
      by_contra hv
      rcases Option.ne_none_iff_exists.mp hv with ⟨x, hx⟩
      simp [CoordinateManager.get, ← hx, hc] at h
    have hm : CoordinateManager.findByName v MagnitudeR.name cm.added_magnitudes = none := by
      by_contra hm
      rcases Option.ne_none_iff_exists.mp hm with ⟨x, hx⟩
      simp [CoordinateManager.get, ← hx, hc, hv] at h
    have hd : CoordinateManager.findByName v DirectionR.name cm.added_directions = none := by
      by_contra hd
      rcases Option.ne_none_iff_exists.mp hd with ⟨x, hx⟩
      simp [CoordinateManager.get, ← hx, hc, hv, hm] at h
    have hk : CoordinateManager.findByName v GridMaskR.name cm.added_masks = none := by
      by_contra hk
      rcases Option.ne_none_iff_exists.mp hk with ⟨x, hx⟩
      simp [CoordinateManager.get, ← hx, hc, hv, hm, hd] at h
    have fc : cm.added_coords.filter (fun r => r.name = v) = [] := by
      rw [List.filter_eq_nil_iff]
      intro a ha
      have := List.find?_eq_none.mp hc a ha
      simpa using this
    have fv : cm.added_vars.filter (fun r => r.name = v) = [] := by
      rw [List.filter_eq_nil_iff]
      intro a ha
      have := List.find?_eq_none.mp hv a ha
      simpa using this
    have fm : cm.added_magnitudes.filter (fun r => r.name = v) = [] := by
      rw [List.filter_eq_nil_iff]
      intro a ha
      have := List.find?_eq_none.mp hm a ha
      simpa using this
    have fd : cm.added_directions.filter (fun r => r.name = v) = [] := by
      rw [List.filter_eq_nil_iff]
      intro a ha
      have := List.find?_eq_none.mp hd a ha
      simpa using this
    have fk : cm.added_masks.filter (fun r => r.name = v) = [] := by
      rw [List.filter_eq_nil_iff]
      intro a ha
      have := List.find?_eq_none.mp hk a ha
      simpa using this
    simp [CoordinateManager.coord_group, fc, fv, fm, fd, fk]

/-- C8 witness: an unregistered field name, resolved on a concrete
registry, produces the `KeyError`. -/
theorem C8_unknown_resolution_witness :
    exCM1.coord_group "nosuch" = .error ("Cannot find the data nosuch") :=
  C8_unknown_resolution.2 exCM1 "nosuch" (by decide)

/-! ## C7: exhausted shape reconciliation -/

/-- C7: when the incoming shape differs from the expected shape and both
the unsqueeze strategy and the single-2-D-transpose strategy fail, a `set`
fails with `DataWrongDimensionError` (the specification's
`ShapeMismatchError`) carrying the original shape and the expected shape,
and nothing is written to the store by that call; in particular shape
`(5,)` against expected `(4,)` fails this way. -/
theorem C7_shape_mismatch_is_error :
    (∀ (shape expected : List Nat) (aT : Bool),
      shape ≠ expected →
      unsqueezeShape shape expected = none →
      transpose2dShape shape (squeezeShape expected) = none →
      ∀ (st : ShapeStore) (name : String),
        setShapes st name shape expected true aT = .error (shape, expected)) ∧
    setShapes [] "hs" [5] [4] true true = .error ([5], [4]) := by
  constructor
  · intro shape expected aT h0 h1 h2 st name
    cases aT <;>
      simp [setShapes, reshapeData, h0, h1, h2]
  · rfl

/-- C7 witness: the failing concrete instance `(5,)` against `(4,)` with
the transpose attempt disabled, through the general statement. -/
theorem C7_shape_mismatch_is_error_witness :
    setShapes [] "hs" [5] [4] true false = .error ([5], [4]) :=
  C7_shape_mismatch_is_error.1 [5] [4] false (by decide) (by decide) (by decide)
    [] "hs"

/-! ## Lemmas on the write path -/

theorem truncQ_b2q (b : Bool) : truncQ (b2q b) = b2q b := by
  cases b <;> decide

theorem map_truncQ_b2q (mb : List Bool) :
    (mb.map b2q).map truncQ = mb.map b2q := by
  induction mb with
  | nil => rfl
  | cons b mb ih => simp [ih, truncQ_b2q]

theorem b2q_ne_zero (b : Bool) : (decide (b2q b ≠ 0)) = b := by
  cases b <;> decide

theorem map_b2q_ne_zero (mb : List Bool) :
    (mb.map b2q).map (fun q => decide (q ≠ 0)) = mb := by
  induction mb with
  | nil => rfl
  | cons b mb ih =>
    simp only [List.map_cons, List.cons.injEq]
    exact ⟨b2q_ne_zero b, ih⟩

/-- Unfolding `set` on a plain (non-mask, non-magnitude, non-direction)
name whose data already has the resolved size. -/
theorem setF_plain (ops : TrigOps) (cm : CoordinateManager) (sizes : Sizes)
    (fuel : Nat) (st : Store) (name : String) (data : List ℚ)
    (shape : List Nat)
    (h1 : findByName name MagnitudeR.name cm.added_magnitudes = none)
    (h2 : findByName name DirectionR.name cm.added_directions = none)
    (hmask : name ∉ cm.maskNames)
    (hshape : shapeOfName cm sizes name = some shape)
    (hlen : data.length = shape.prod) :
    setF ops cm sizes (fuel + 1) st name data
      = set_dataF (setF ops cm sizes fuel) cm st name data := by
  simp [setF, hshape, hlen, hmask, h1, h2]

/-- Unfolding `set` on a mask name whose data already has the resolved
size. -/
theorem setF_mask_step (ops : TrigOps) (cm : CoordinateManager) (sizes : Sizes)
    (fuel : Nat) (st : Store) (name : String) (data : List ℚ)
    (shape : List Nat)
    (h1 : findByName name MagnitudeR.name cm.added_magnitudes = none)
    (h2 : findByName name DirectionR.name cm.added_directions = none)
    (hmask : name ∈ cm.maskNames)
    (hshape : shapeOfName cm sizes name = some shape)
    (hlen : data.length = shape.prod) :
    setF ops cm sizes (fuel + 1) st name data
      = set_dataF (setF ops cm sizes fuel) cm st name (data.map truncQ) := by
  simp [setF, hshape, hlen, hmask, h1, h2]

/-- Unfolding `_set_data` once the coordinate group resolves. -/
theorem set_dataF_eq (doSet : Store → String → List ℚ → Option Store)
    (cm : CoordinateManager) (st : Store) (name : String) (data : List ℚ)
    (g : String) (hcg : cm.coord_group name = .ok g) :
    set_dataF doSet cm st name data
      = trigFold doSet (storeInsert st name data) (cm.triggers name) data := by
  simp [set_dataF, hcg, Except.toOption]

/-- A mask write with no further triggers registered against the written
mask's name is exactly an `astype(int)` store insert. -/
theorem setF_mask_write (ops : TrigOps) (cm : CoordinateManager) (sizes : Sizes)
    (m : GridMaskR) (hm : m ∈ cm.added_masks)
    (hmag : findByName m.name MagnitudeR.name cm.added_magnitudes = none)
    (hdir : findByName m.name DirectionR.name cm.added_directions = none)
    (hnotrig : cm.triggers m.name = [])
    (fuel : Nat) (st : Store) (v : List ℚ) (st2 : Store)
    (h : setF ops cm sizes fuel st m.name v = some st2) :
    st2 = storeInsert st m.name (v.map truncQ) := by
  cases fuel with
  | zero => simp [setF] at h
  | succ fuel =>
    have hmask : m.name ∈ cm.maskNames :=
      List.mem_map_of_mem GridMaskR.name hm
    cases hshape : shapeOfName cm sizes m.name with
    | none => simp [setF, hshape] at h
    | some shape =>
      by_cases hlen : v.length = shape.prod
      · rw [setF_mask_step ops cm sizes fuel st m.name v shape hmag hdir hmask
          hshape hlen] at h
        cases hcg : cm.coord_group m.name with
        | error e => simp [set_dataF, hcg, Except.toOption] at h
        | ok g =>
          rw [set_dataF_eq _ _ _ _ _ g hcg, hnotrig] at h
          simpa [trigFold] using h.symm
      · simp [setF, hshape, hlen] at h

/-- Mask-trigger writes only touch the written mask names: any other key
reads the same after the trigger loop (well-formed registry: masks are not
magnitudes or directions, and no mask is triggered by a mask name). -/
theorem trigFold_preserve (ops : TrigOps) (cm : CoordinateManager) (sizes : Sizes)
    (hdisj : ∀ m ∈ cm.added_masks,
      findByName m.name MagnitudeR.name cm.added_magnitudes = none ∧
      findByName m.name DirectionR.name cm.added_directions = none)
    (hnocasc : ∀ m ∈ cm.added_masks, cm.triggers m.name = [])
    (fuel : Nat) (ms : List GridMaskR) (hms : ∀ m ∈ ms, m ∈ cm.added_masks)
    (data : List ℚ) (st st2 : Store)
    (h : trigFold (setF ops cm sizes fuel) st ms data = some st2)
    (k : String) (hk : ∀ m ∈ ms, k ≠ m.name) :
    storeLookup st2 k = storeLookup st k := by
  induction ms generalizing st with
  | nil =>
    simp only [trigFold] at h
    cases h
    rfl
  | cons m rest ih =>
    simp only [trigFold] at h
    cases hcm : computeMask m data with
    | none => rw [hcm] at h; simp at h
    | some mb =>
      rw [hcm] at h
      simp only [Option.bind_eq_bind, Option.some_bind] at h
      cases hset : setF ops cm sizes fuel st m.name (mb.map b2q) with
      | none => rw [hset] at h; simp at h
      | some stm =>
        rw [hset] at h
        simp only [Option.bind_eq_bind, Option.some_bind] at h
        have hm0 := hms m (List.mem_cons_self m rest)
        have hstm : stm = storeInsert st m.name ((mb.map b2q).map truncQ) :=
          setF_mask_write ops cm sizes m hm0 (hdisj m hm0).1 (hdisj m hm0).2
            (hnocasc m hm0) fuel st (mb.map b2q) stm hset
        have hrest := ih (fun x hx => hms x (List.mem_cons_of_mem m hx)) stm h
        rw [hrest (fun x hx => hk x (List.mem_cons_of_mem m hx)), hstm,
          storeLookup_insert, if_neg (hk m (List.mem_cons_self m rest))]

/-- After the trigger loop, a triggered mask of the loop reads as the 0/1
encoding of its computed boolean mask. -/
theorem trigFold_lookup (ops : TrigOps) (cm : CoordinateManager) (sizes : Sizes)
    (hdisj : ∀ m ∈ cm.added_masks,
      findByName m.name MagnitudeR.name cm.added_magnitudes = none ∧
      findByName m.name DirectionR.name cm.added_directions = none)
    (hnocasc : ∀ m ∈ cm.added_masks, cm.triggers m.name = [])
    (fuel : Nat) (ms : List GridMaskR) (hms : ∀ m ∈ ms, m ∈ cm.added_masks)
    (hnodup : (ms.map GridMaskR.name).Nodup)
    (M : GridMaskR) (hM : M ∈ ms) (data : List ℚ) (mb : List Bool)
    (hcmM : computeMask M data = some mb)
    (st st2 : Store)
    (h : trigFold (setF ops cm sizes fuel) st ms data = some st2) :
    storeLookup st2 M.name = some (mb.map b2q) := by
  induction ms generalizing st with
  | nil => cases hM
  | cons m rest ih =>
    simp only [trigFold] at h
    cases hcm : computeMask m data with
    | none => rw [hcm] at h; simp at h
    | some mbm =>
      rw [hcm] at h
      simp only [Option.bind_eq_bind, Option.some_bind] at h
      cases hset : setF ops cm sizes fuel st m.name (mbm.map b2q) with
      | none => rw [hset] at h; simp at h
      | some stm =>
        rw [hset] at h
        simp only [Option.bind_eq_bind, Option.some_bind] at h
        obtain ⟨hmrest, hnodup2⟩ := List.nodup_cons.mp hnodup
        rcases List.mem_cons.mp hM with hMm | hMrest
        · subst hMm
          have hm0 := hms M (List.mem_cons_self M rest)
          have hstm : stm = storeInsert st M.name ((mbm.map b2q).map truncQ) :=
            setF_mask_write ops cm sizes M hm0 (hdisj M hm0).1 (hdisj M hm0).2
              (hnocasc M hm0) fuel st (mbm.map b2q) stm hset
          have hpres := trigFold_preserve ops cm sizes hdisj hnocasc fuel rest
            (fun x hx => hms x (List.mem_cons_of_mem M hx)) data stm st2 h
            M.name
            (fun x hx hxeq => hmrest (hxeq ▸ List.mem_map_of_mem GridMaskR.name hx))
          rw [hpres, hstm, storeLookup_insert, if_pos rfl, map_truncQ_b2q]
          rw [hcmM] at hcm
          cases hcm
          rfl
        · exact ih (fun x hx => hms x (List.mem_cons_of_mem m hx)) hnodup2
            hMrest stm h

/-! ## C1: trigger semantics of a variable write -/

/-- C1: writing a plain variable whose registered trigger list contains the
mask `M` with bounds `(lo, hi)` and inclusivity `(li1, li2)` stores under
`M`'s name the 0/1 encoding of the elementwise conjunction of
`data >= lo` (or `> lo`) and `data <= hi` (or `< hi`), read back as that
boolean list; in particular, with mask `sea` triggered by `topo` with
`valid_range=(0, inf)` and `range_inclusive=(True, False)`, setting
`topo = [-1, 0, 1]` yields `sea == [False, True, True]`.  The registry
hypotheses are the invariants the registration path maintains: globally
unique names (so masks are neither magnitudes nor directions and mask
names are duplicate-free) and no mask triggered by another mask's name. -/
theorem C1_trigger_write_sets_mask :
    (∀ (ops : TrigOps) (cm : CoordinateManager) (sizes : Sizes)
      (name : String) (data : List ℚ) (fuel : Nat) (st st2 : Store)
      (M : GridMaskR) (lo hi : Bnd) (li1 li2 : Bool),
      findByName name MagnitudeR.name cm.added_magnitudes = none →
      findByName name DirectionR.name cm.added_directions = none →
      name ∉ cm.maskNames →
      (cm.added_masks.map GridMaskR.name).Nodup →
      (∀ m ∈ cm.added_masks,
        findByName m.name MagnitudeR.name cm.added_magnitudes = none ∧
        findByName m.name DirectionR.name cm.added_directions = none) →
      (∀ m ∈ cm.added_masks, cm.triggers m.name = []) →
      M ∈ cm.triggers name →
      M.valid_range = (some lo, some hi) →
      M.range_inclusive = .pair li1 li2 →
      setF ops cm sizes fuel st name data = some st2 →
      storeLookup st2 M.name = some ((data.map (fun x =>
          (if li1 then lo.leR x else lo.ltR x) &&
          (if li2 then Bnd.rLe x hi else Bnd.rLt x hi))).map b2q) ∧
      (storeLookup st2 M.name).map (List.map (fun q => decide (q ≠ 0)))
        = some (data.map (fun x =>
          (if li1 then lo.leR x else lo.ltR x) &&
          (if li2 then Bnd.rLe x hi else Bnd.rLt x hi)))) ∧
    setF opsZ exCM1 exSizes1 5 [] "topo" [-1, 0, 1]
      = some [("sea", [0, 1, 1]), ("topo", [-1, 0, 1])] := by
  constructor
  · intro ops cm sizes name data fuel st st2 M lo hi li1 li2
      h1 h2 hmask hnodup hdisj hnocasc hM hrange hincl hsucc
    have hcmM : computeMask M data
        = some (data.map (fun x =>
            (if li1 then lo.leR x else lo.ltR x) &&
            (if li2 then Bnd.rLe x hi else Bnd.rLt x hi))) := by
      simp [computeMask, hrange, hincl]
    cases fuel with
    | zero => simp [setF] at hsucc
    | succ fuel =>
      cases hshape : shapeOfName cm sizes name with
      | none => simp [setF, hshape] at hsucc
      | some shape =>
        by_cases hlen : data.length = shape.prod
        · rw [setF_plain ops cm sizes fuel st name data shape h1 h2 hmask
            hshape hlen] at hsucc
          cases hcg : cm.coord_group name with
          | error e => simp [set_dataF, hcg, Except.toOption] at hsucc
          | ok g =>
            rw [set_dataF_eq _ _ _ _ _ g hcg] at hsucc
            have hms : ∀ m ∈ cm.triggers name, m ∈ cm.added_masks :=
              fun m hm => List.mem_of_mem_filter hm
            have hnodup2 : ((cm.triggers name).map GridMaskR.name).Nodup :=
              hnodup.sublist (List.Sublist.map GridMaskR.name
                (List.filter_sublist cm.added_masks))
            have hlook := trigFold_lookup ops cm sizes hdisj hnocasc fuel
              (cm.triggers name) hms hnodup2 M hM data _ hcmM _ st2 hsucc
            refine ⟨hlook, ?_⟩
            rw [hlook]
            exact congrArg some (map_b2q_ne_zero _)
        · simp [setF, hshape, hlen] at hsucc
  · decide

/-- C1 witness: the concrete trigger example, fully evaluated and fed back
through the general statement: `sea` reads back as `[0, 1, 1]`
(`[False, True, True]`). -/
theorem C1_trigger_write_sets_mask_witness :
    storeLookup [("sea", [0, 1, 1]), ("topo", [-1, 0, 1])] "sea"
      = some (([(-1 : ℚ), 0, 1].map (fun x =>
          (if true then (Bnd.val 0).leR x else (Bnd.val 0).ltR x) &&
          (if false then Bnd.rLe x Bnd.pinf else Bnd.rLt x Bnd.pinf))).map b2q) :=
  (C1_trigger_write_sets_mask.1 opsZ exCM1 exSizes1 "topo" [-1, 0, 1] 5 []
    [("sea", [0, 1, 1]), ("topo", [-1, 0, 1])]
    ⟨"sea", "grid", 0, none, some "topo",
      (some (Bnd.val 0), some Bnd.pinf), .pair true false⟩
    (Bnd.val 0) Bnd.pinf true false
    rfl rfl (by decide) (by decide) (by decide) (by decide) (by decide)
    rfl rfl (by decide)).1

/-! ## C5: a triggered mask write re-enters the trigger engine -/

/-- C5 counterexample: in a registry where mask `m2` is registered as
triggered by the mask `m1` (itself triggered by the variable `v`), writing
`v` writes `m1`, and that triggered mask write itself fires `m2`'s
trigger — `m2` ends up written, although it was never written before the
call and the claim says a triggered mask write fires no further
triggers. -/
theorem C5_counterexample_cascade_fires :
    setF opsZ exCM5 exSizes5 9 [] "v" [5]
        = some [("m2", [1]), ("m1", [1]), ("v", [5])] ∧
    storeLookup [] "m2" = none ∧
    storeLookup [("m2", [1]), ("m1", [1]), ("v", [5])] "m2" = some [1] :=
  ⟨by decide, rfl, by decide⟩

/-- C5 (amended): a triggered mask write goes through the full `set` entry
point and therefore fires the triggers registered against the written
mask's own name: if `m1` is triggered by the written variable and `m2` is
registered as triggered by `m1`, a successful write of the variable stores
both `m1`'s mask and, one level deeper, `m2`'s mask computed from `m1`'s
freshly stored 0/1 data.  Triggering is transitive, not one level deep. -/
theorem C5_triggered_write_fires_further_triggers :
    ∀ (ops : TrigOps) (cm : CoordinateManager) (sizes : Sizes)
      (name : String) (data : List ℚ) (fuel : Nat) (st st2 : Store)
      (M1 M2 : GridMaskR) (mb1 mb2 : List Bool),
      findByName name MagnitudeR.name cm.added_magnitudes = none →
      findByName name DirectionR.name cm.added_directions = none →
      name ∉ cm.maskNames →
      M1 ∈ cm.added_masks →
      M2 ∈ cm.added_masks →
      cm.triggers name = [M1] →
      cm.triggers M1.name = [M2] →
      cm.triggers M2.name = [] →
      findByName M1.name MagnitudeR.name cm.added_magnitudes = none →
      findByName M1.name DirectionR.name cm.added_directions = none →
      findByName M2.name MagnitudeR.name cm.added_magnitudes = none →
      findByName M2.name DirectionR.name cm.added_directions = none →
      M2.name ≠ M1.name →
      computeMask M1 data = some mb1 →
      computeMask M2 (mb1.map b2q) = some mb2 →
      setF ops cm sizes fuel st name data = some st2 →
      storeLookup st2 M2.name = some (mb2.map b2q) ∧
      storeLookup st2 M1.name = some (mb1.map b2q) := by
  intro ops cm sizes name data fuel st st2 M1 M2 mb1 mb2
    h1 h2 hmask hM1m hM2m htrig htrig1 htrig2 hm1mag hm1dir hm2mag hm2dir
    hne hcm1 hcm2 hsucc
  have hmask1 : M1.name ∈ cm.maskNames :=
    List.mem_map_of_mem GridMaskR.name hM1m
  cases fuel with
  | zero => simp [setF] at hsucc
  | succ fuel =>
    cases hshape : shapeOfName cm sizes name with
    | none => simp [setF, hshape] at hsucc
    | some shape =>
      by_cases hlen : data.length = shape.prod
      · rw [setF_plain ops cm sizes fuel st name data shape h1 h2 hmask
          hshape hlen] at hsucc
        cases hcg : cm.coord_group name with
        | error e => simp [set_dataF, hcg, Except.toOption] at hsucc
        | ok g =>
          rw [set_dataF_eq _ _ _ _ _ g hcg, htrig] at hsucc
          simp only [trigFold, hcm1, Option.bind_eq_bind, Option.some_bind]
            at hsucc
          cases hset1 : setF ops cm sizes fuel (storeInsert st name data)
              M1.name (mb1.map b2q) with
          | none => rw [hset1] at hsucc; simp at hsucc
          | some stm =>
            rw [hset1] at hsucc
            simp only [Option.some_bind, trigFold] at hsucc
            cases hsucc
            cases fuel with
            | zero => simp [setF] at hset1
            | succ fuel =>
              cases hshape1 : shapeOfName cm sizes M1.name with
              | none => simp [setF, hshape1] at hset1
              | some shape1 =>
                by_cases hlen1 : mb1.length = shape1.prod
                · rw [setF_mask_step ops cm sizes fuel _ M1.name _ shape1
                    hm1mag hm1dir hmask1 hshape1
                    (by rw [List.length_map]; exact hlen1), map_truncQ_b2q]
                    at hset1
                  cases hcg1 : cm.coord_group M1.name with
                  | error e =>
                    simp [set_dataF, hcg1, Except.toOption] at hset1
                  | ok g1 =>
                    rw [set_dataF_eq _ _ _ _ _ g1 hcg1, htrig1] at hset1
                    simp only [trigFold, hcm2, Option.bind_eq_bind,
                      Option.some_bind] at hset1
                    cases hset2 : setF ops cm sizes fuel
                        (storeInsert (storeInsert st name data) M1.name
                          (mb1.map b2q)) M2.name (mb2.map b2q) with
                    | none => rw [hset2] at hset1; simp at hset1
                    | some stb =>
                      rw [hset2] at hset1
                      simp only [Option.some_bind, trigFold] at hset1
                      cases hset1
                      have hstb := setF_mask_write ops cm sizes M2 hM2m
                        hm2mag hm2dir htrig2 fuel _ (mb2.map b2q) _ hset2
                      rw [hstb, map_truncQ_b2q]
                      constructor
                      · rw [storeLookup_insert, if_pos rfl]
                      · rw [storeLookup_insert, if_neg (Ne.symm hne),
                          storeLookup_insert, if_pos rfl]
                · simp [setF, hshape1, hlen1] at hset1
      · simp [setF, hshape, hlen] at hsucc

/-- C5 witness for the amended claim: the concrete cascading registry,
with the conclusions of the general statement evaluated. -/
theorem C5_triggered_write_fires_further_triggers_witness :
    storeLookup [("m2", [1]), ("m1", [1]), ("v", [5])] "m2"
        = some ([true].map b2q) ∧
    storeLookup [("m2", [1]), ("m1", [1]), ("v", [5])] "m1"
        = some ([true].map b2q) :=
  C5_triggered_write_fires_further_triggers opsZ exCM5 exSizes5 "v" [5] 9 []
    [("m2", [1]), ("m1", [1]), ("v", [5])]
    ⟨"m1", "grid", 0, none, some "v",
      (some (Bnd.val 0), some Bnd.pinf), .pair true false⟩
    ⟨"m2", "grid", 0, none, some "m1",
      (some (Bnd.val 1), some Bnd.pinf), .pair true true⟩
    [true] [true]
    rfl rfl (by decide) (by decide) (by decide) (by decide) (by decide)
    (by decide) rfl rfl rfl rfl (by decide) (by decide) (by decide) (by decide)

/-! ## C4: setting a magnitude stores only the two components -/

/-- Unfolding `set` on a magnitude name whose data already has the
resolved size: `_set_magnitude` computes the components from the paired
direction's current math-convention value and writes them through
`_set_data`. -/
theorem setF_mag_step (ops : TrigOps) (cm : CoordinateManager) (sizes : Sizes)
    (fuel : Nat) (st : Store) (name : String) (data : List ℚ)
    (shape : List Nat) (mag : MagnitudeR) (dirName : String)
    (dirObj : DirectionR) (dirData : List ℚ)
    (hmag : findByName name MagnitudeR.name cm.added_magnitudes = some mag)
    (hmask : name ∉ cm.maskNames)
    (hshape : shapeOfName cm sizes name = some shape)
    (hlen : data.length = shape.prod)
    (hdirn : mag.direction = some dirName)
    (hdir : findByName dirName DirectionR.name cm.added_directions = some dirObj)
    (hdd : getDirMath ops cm sizes st dirObj = some dirData) :
    setF ops cm sizes (fuel + 1) st name data
      = (set_dataF (setF ops cm sizes fuel) cm st mag.x
            (List.zipWith (fun m c => m * c) data (dirData.map ops.cos))).bind
          (fun stx => set_dataF (setF ops cm sizes fuel) cm stx mag.y
            (List.zipWith (fun m s => m * s) data (dirData.map ops.sin))) := by
  simp [setF, hshape, hlen, hmask, hmag, hdirn, hdir, hdd]

/-- C4: a successful `set` of a magnitude paired with a direction stores
the Cartesian components `x = m * cos(theta)` and `y = m * sin(theta)`
elementwise, where `theta` is the paired direction's current value read in
the internal math convention, and stores nothing under the magnitude's own
name.  The inequality and non-mask hypotheses are instances of the
registry's global name uniqueness. -/
theorem C4_set_magnitude_stores_components :
    ∀ (ops : TrigOps) (cm : CoordinateManager) (sizes : Sizes)
      (name : String) (mdata : List ℚ) (fuel : Nat) (st st2 : Store)
      (mag : MagnitudeR) (dirName : String) (dirObj : DirectionR)
      (theta : List ℚ),
      findByName name MagnitudeR.name cm.added_magnitudes = some mag →
      mag.direction = some dirName →
      findByName dirName DirectionR.name cm.added_directions = some dirObj →
      getDirMath ops cm sizes st dirObj = some theta →
      name ∉ cm.maskNames →
      mag.x ∉ cm.maskNames →
      mag.y ∉ cm.maskNames →
      mag.x ≠ mag.y →
      name ≠ mag.x →
      name ≠ mag.y →
      (∀ m ∈ cm.added_masks,
        findByName m.name MagnitudeR.name cm.added_magnitudes = none ∧
        findByName m.name DirectionR.name cm.added_directions = none) →
      (∀ m ∈ cm.added_masks, cm.triggers m.name = []) →
      setF ops cm sizes fuel st name mdata = some st2 →
      storeLookup st2 mag.x
          = some (List.zipWith (fun a c => a * c) mdata (theta.map ops.cos)) ∧
      storeLookup st2 mag.y
          = some (List.zipWith (fun a s => a * s) mdata (theta.map ops.sin)) ∧
      storeLookup st2 name = storeLookup st name := by
  intro ops cm sizes name mdata fuel st st2 mag dirName dirObj theta
    hmag hdirn hdir hdd hmask hxmask hymask hxy hnx hny hdisj hnocasc hsucc
  cases fuel with
  | zero => simp [setF] at hsucc
  | succ fuel =>
    cases hshape : shapeOfName cm sizes name with
    | none => simp [setF, hshape] at hsucc
    | some shape =>
      by_cases hlen : mdata.length = shape.prod
      · rw [setF_mag_step ops cm sizes fuel st name mdata shape mag dirName
          dirObj theta hmag hmask hshape hlen hdirn hdir hdd] at hsucc
        cases hA : set_dataF (setF ops cm sizes fuel) cm st mag.x
            (List.zipWith (fun a c => a * c) mdata (theta.map ops.cos)) with
        | none => rw [hA] at hsucc; simp at hsucc
        | some stb =>
          rw [hA] at hsucc
          simp only [Option.bind_eq_bind, Option.some_bind] at hsucc
          cases hcgx : cm.coord_group mag.x with
          | error e => simp [set_dataF, hcgx, Except.toOption] at hA
          | ok gx =>
            rw [set_dataF_eq _ _ _ _ _ gx hcgx] at hA
            cases hcgy : cm.coord_group mag.y with
            | error e => simp [set_dataF, hcgy, Except.toOption] at hsucc
            | ok gy =>
              rw [set_dataF_eq _ _ _ _ _ gy hcgy] at hsucc
              have hmsx : ∀ m ∈ cm.triggers mag.x, m ∈ cm.added_masks :=
                fun m hm => List.mem_of_mem_filter hm
              have hmsy : ∀ m ∈ cm.triggers mag.y, m ∈ cm.added_masks :=
                fun m hm => List.mem_of_mem_filter hm
              have hkx : ∀ (k : String), k ∉ cm.maskNames →
                  ∀ m ∈ cm.triggers mag.x, k ≠ m.name :=
                fun k hkm m hm hke =>
                  hkm (hke ▸ List.mem_map_of_mem GridMaskR.name (hmsx m hm))
              have hky : ∀ (k : String), k ∉ cm.maskNames →
                  ∀ m ∈ cm.triggers mag.y, k ≠ m.name :=
                fun k hkm m hm hke =>
                  hkm (hke ▸ List.mem_map_of_mem GridMaskR.name (hmsy m hm))
              have hpy := fun (k : String) (hkm : k ∉ cm.maskNames) =>
                trigFold_preserve ops cm sizes hdisj hnocasc fuel
                  (cm.triggers mag.y) hmsy _ _ st2 hsucc k (hky k hkm)
              have hpx := fun (k : String) (hkm : k ∉ cm.maskNames) =>
                trigFold_preserve ops cm sizes hdisj hnocasc fuel
                  (cm.triggers mag.x) hmsx _ _ stb hA k (hkx k hkm)
              refine ⟨?_, ?_, ?_⟩
              · rw [hpy mag.x hxmask, storeLookup_insert, if_neg hxy,
                  hpx mag.x hxmask, storeLookup_insert, if_pos rfl]
              · rw [hpy mag.y hymask, storeLookup_insert, if_pos rfl]
              · rw [hpy name hmask, storeLookup_insert, if_neg hny,
                  hpx name hmask, storeLookup_insert, if_neg hnx]
      · simp [setF, hshape, hlen] at hsucc

/-- C4 witness: the concrete magnitude registry, the write evaluated and
fed back through the general statement (the component values are kept as
the unevaluated elementwise products, since rational multiplication is
opaque to kernel reduction). -/
theorem C4_set_magnitude_stores_components_witness :
    storeLookup
        [("uy", List.zipWith (fun a s => a * s) [(3 : ℚ), 4]
            ([(0 : ℚ), 0].map opsZ.sin)),
         ("ux", List.zipWith (fun a c => a * c) [(3 : ℚ), 4]
            ([(0 : ℚ), 0].map opsZ.cos))] "ux"
        = some (List.zipWith (fun a c => a * c) [(3 : ℚ), 4]
            ([(0 : ℚ), 0].map opsZ.cos)) ∧
    storeLookup
        [("uy", List.zipWith (fun a s => a * s) [(3 : ℚ), 4]
            ([(0 : ℚ), 0].map opsZ.sin)),
         ("ux", List.zipWith (fun a c => a * c) [(3 : ℚ), 4]
            ([(0 : ℚ), 0].map opsZ.cos))] "uy"
        = some (List.zipWith (fun a s => a * s) [(3 : ℚ), 4]
            ([(0 : ℚ), 0].map opsZ.sin)) ∧
    storeLookup
        [("uy", List.zipWith (fun a s => a * s) [(3 : ℚ), 4]
            ([(0 : ℚ), 0].map opsZ.sin)),
         ("ux", List.zipWith (fun a c => a * c) [(3 : ℚ), 4]
            ([(0 : ℚ), 0].map opsZ.cos))] "wind" = storeLookup [] "wind" :=
  C4_set_magnitude_stores_components opsZ exCM4 exSizes4 "wind" [3, 4] 5 []
    _
    ⟨"wind", "ux", "uy", some "wdir", "grid"⟩ "wdir"
    ⟨"wdir", "ux", "uy", some "wind", DirType.fromDir, "grid"⟩ [0, 0]
    rfl rfl rfl (by decide) (by decide) (by decide) (by decide) (by decide)
    (by decide) (by decide) (by decide) (by decide) rfl

/-! ## C10: omitted data writes the default-filled array -/

/-- C10: for a registered plain data variable, `set(name)` with the data
omitted writes the array of the variable's resolved shape filled with the
variable's registered default value, and a subsequent strict read returns
exactly that array. -/
theorem C10_set_none_writes_default_fill :
    ∀ (ops : TrigOps) (cm : CoordinateManager) (sizes : Sizes)
      (name : String) (v : DataVarR) (cs : List String) (shape : List Nat)
      (fuel : Nat) (st st2 : Store),
      cm.get name = some (.dvar v) →
      cm.coord_group name = .ok v.coord_group →
      cm.coords v.coord_group = some cs →
      cs.mapM (lenOf sizes) = some shape →
      findByName name MagnitudeR.name cm.added_magnitudes = none →
      findByName name DirectionR.name cm.added_directions = none →
      name ∉ cm.maskNames →
      (∀ m ∈ cm.added_masks,
        findByName m.name MagnitudeR.name cm.added_magnitudes = none ∧
        findByName m.name DirectionR.name cm.added_directions = none) →
      (∀ m ∈ cm.added_masks, cm.triggers m.name = []) →
      setNoneF ops cm sizes fuel st name = some st2 →
      storeLookup st2 name
          = some (List.replicate shape.prod v.default_value) ∧
      dsGet cm sizes st2 name false true
          = some (List.replicate shape.prod v.default_value) := by
  intro ops cm sizes name v cs shape fuel st st2
    hget hcg hcoords hlens h1 h2 hmask hdisj hnocasc hsucc
  have hempty : emptyData cm sizes name
      = some (List.replicate shape.prod v.default_value) := by
    simp only [emptyData, hget, Option.bind_eq_bind, Option.some_bind,
      Entity.defaultValue, Entity.coordGroup, hcoords, hlens]
    rfl
  have hgetempty : getEmptyVals ops cm sizes st name
      = some (List.replicate shape.prod v.default_value) := by
    rw [getEmptyVals]
    simp only [h1, h2]
    cases hsl : storeLookup st name with
    | none => simp [dsGet, hsl, hempty, hmask]
    | some d => simp [dsGet, hsl, hempty, hmask]
  rw [setNoneF, hgetempty] at hsucc
  simp only [Option.bind_eq_bind, Option.some_bind] at hsucc
  have hshape : shapeOfName cm sizes name = some shape := by
    simp only [shapeOfName, hcg, shapeOfGroup, hcoords, Option.some_bind]
    exact hlens
  cases fuel with
  | zero => simp [setF] at hsucc
  | succ fuel =>
    rw [setF_plain ops cm sizes fuel st name _ shape h1 h2 hmask hshape
      (by simp)] at hsucc
    rw [set_dataF_eq _ _ _ _ _ v.coord_group hcg] at hsucc
    have hms : ∀ m ∈ cm.triggers name, m ∈ cm.added_masks :=
      fun m hm => List.mem_of_mem_filter hm
    have hk : ∀ m ∈ cm.triggers name, name ≠ m.name :=
      fun m hm hke =>
        hmask (hke ▸ List.mem_map_of_mem GridMaskR.name (hms m hm))
    have hpres := trigFold_preserve ops cm sizes hdisj hnocasc fuel
      (cm.triggers name) hms _ _ st2 hsucc name hk
    have hlook : storeLookup st2 name
        = some (List.replicate shape.prod v.default_value) := by
      rw [hpres, storeLookup_insert, if_pos rfl]
    refine ⟨hlook, ?_⟩
    rw [dsGet, hlook]
    rfl

/-- C10 witness: variable `hs` with default `3/2` over four grid points;
`set` with no data stores `[3/2, 3/2, 3/2, 3/2]` and the strict read
returns it. -/
theorem C10_set_none_writes_default_fill_witness :
    storeLookup [("hs", [(3 : ℚ)/2, 3/2, 3/2, 3/2])] "hs"
        = some (List.replicate 4 ((3 : ℚ)/2)) ∧
    dsGet exCM10 exSizes10 [("hs", [(3 : ℚ)/2, 3/2, 3/2, 3/2])] "hs" false true
        = some (List.replicate 4 ((3 : ℚ)/2)) := by
  have h := C10_set_none_writes_default_fill opsZ exCM10 exSizes10 "hs"
    ⟨"hs", "grid", 3/2⟩ ["inds"] [4] 5 [] [("hs", [3/2, 3/2, 3/2, 3/2])]
    rfl rfl rfl rfl rfl rfl (by decide) (by decide) (by decide) (by rfl)
  simpa using h

/-- C9: mutating a deep copy of a registry cell (adding a coordinate to
the copy) leaves the original cell's registry value — and hence all its
group resolutions — unchanged: `deepcopy` allocates a fresh cell, so the
copy and the original share no mutable substructure. -/
theorem C9_deepcopy_mutation_independent (h : Heap) (r : Nat)
    (reg : CoordinateManager) (hr : heapGet h r = some reg) (c : CoordinateR) :
    heapGet (addCoordAt (deepcopyAt h r).1 (deepcopyAt h r).2 c) r = some reg ∧
    ∀ g, (heapGet (addCoordAt (deepcopyAt h r).1 (deepcopyAt h r).2 c) r).map
        (fun m => m.coords g) = some (reg.coords g) := by
  have hr0 : h[r]? = some reg := hr
  have hlt : r < h.length := by
    rcases List.getElem?_eq_some.mp hr0 with ⟨hlt, _⟩
    exact hlt
  have hne : h.length ≠ r := Nat.ne_of_gt hlt
  have happ : (h ++ [reg])[r]? = some reg := by
    rw [List.getElem?_append_left hlt]
    exact hr0
  have hcopy : deepcopyAt h r = (h ++ [reg], h.length) := by
    simp [deepcopyAt, hr0]
  have hconc : (h ++ [reg])[h.length]? = some reg :=
    List.getElem?_concat_length h reg
  have hmain : heapGet (addCoordAt (deepcopyAt h r).1 (deepcopyAt h r).2 c) r
      = some reg := by
    rw [hcopy]
    simp only [addCoordAt, hconc]
    cases hadd : reg.add_coord c with
    | ok reg2 =>
      simp only [heapGet]
      rw [List.getElem?_set_ne hne]
      exact happ
    | error e =>
      simpa [heapGet] using happ
  exact ⟨hmain, fun g => by rw [hmain]; rfl⟩

/-- C9 witness: a concrete heap holding one registry; adding a coordinate
to its deep copy leaves the original's value intact. -/
theorem C9_deepcopy_mutation_independent_witness :
    heapGet (addCoordAt (deepcopyAt [exCM3] 0).1 (deepcopyAt [exCM3] 0).2
      ⟨"w", "gridpoint"⟩) 0 = some exCM3 :=
  (C9_deepcopy_mutation_independent [exCM3] 0 exCM3 rfl ⟨"w", "gridpoint"⟩).1

end GeoSkel
